import Mathlib

/-!
Shallow embedding of the fuel-core storage excerpt: the table schemas of
crates/storage/src/tables.rs and the GraphQL off-chain adapter of
crates/fuel-core/src/service/adapters/graphql_api/off_chain.rs, together
with spec-modelled stand-ins for the collaborators that the excerpt only
calls into (the inherent Database methods and the external Merkle engines).
-/

/-- Direction of a range iteration, mirroring fuel_core_storage's IterDirection. -/
inductive IterDirection
  | forward
  | reverse
  deriving DecidableEq

/-- Owner addresses, abstracted as naturals ordered as their byte encodings. -/
abbrev Address := Nat

/-- Transaction ids (32-byte hashes), abstracted as naturals. -/
abbrev TxId := Nat

/-- 32-byte values, abstracted as naturals. -/
abbrev Bytes32 := Nat

/-- Message nonces, abstracted as naturals ordered as their byte encodings. -/
abbrev Nonce := Nat

/-- UTXO ids: a transaction id with an output index, ordered lexicographically. -/
abbrev UtxoId := Lex (Nat × Nat)

/-- Block heights. -/
abbrev BlockHeight := Nat

/-- 32-byte Merkle roots, abstracted as naturals. -/
abbrev MerkleRoot := Nat

/-- Modelled from the spec: the enumerated transaction status variants; the exact
taxonomy belongs to the external execution collaborator. -/
inductive TransactionStatus
  | submitted
  | success
  | failed
  | squeezedOut
  deriving DecidableEq

/-- Modelled from the spec: failures of the underlying byte store
(I/O, corruption, codec mismatch); the store itself is outside the excerpt. -/
inductive DatabaseError
  | ioFault (code : Nat)
  | corruption (code : Nat)
  | codecMismatch (code : Nat)
  deriving DecidableEq

/-- The storage error taxonomy of spec section 7: a required lookup that found
nothing, a propagated backend failure, or an unsupported operation. -/
inductive StorageError
  | notFound (entity : String)
  | dbError (e : DatabaseError)
  | unsupported
  deriving DecidableEq

/-- Conversion of an inherent database error into a StorageError, the
StorageError::from applied by the adapter layer. -/
def StorageError.fromDb (e : DatabaseError) : StorageError := StorageError.dbError e

/-- Modelled from the spec: the composite key of the owned-transactions secondary
index, an owner address together with the (block_height, tx_idx) ordering key. -/
structure OwnedTransactionIndexKey where
  owner : Address
  block_height : BlockHeight
  tx_idx : Nat
  deriving DecidableEq

/-- The resume cursor of owned-transaction iteration
(database::transactions::OwnedTransactionIndexCursor). -/
structure OwnedTransactionIndexCursor where
  block_height : BlockHeight
  tx_idx : Nat
  deriving DecidableEq

/-- A transaction pointer: the block height and the index of the transaction
inside that block. -/
structure TxPointer where
  block_height : BlockHeight
  tx_index : Nat
  deriving DecidableEq

/-- Modelled from the spec: the off-chain Database state. The excerpt contains only
the adapter impls for Database; the type itself lives outside it. Per-owner
secondary indices are finite sets of ids kept as duplicate-free lists, the
transaction-status table is an association list, and storeFault models a failing
underlying byte store (none = healthy). -/
structure Database where
  txStatuses : List (TxId × TransactionStatus)
  ownedMessages : Address → List Nonce
  ownedCoins : Address → List UtxoId
  ownedTxs : List (OwnedTransactionIndexKey × TxId)
  storeFault : Option DatabaseError

/-- Lookup in an association list. -/
def lookupAssoc {κ ν : Type} [DecidableEq κ] : List (κ × ν) → κ → Option ν
  | [], _ => none
  | (k', v) :: rest, k => if k' = k then some v else lookupAssoc rest k

/-- Upsert into an association list, returning the new list and the previous value
stored at the key, if any. -/
def upsertAssoc {κ ν : Type} [DecidableEq κ] : List (κ × ν) → κ → ν → List (κ × ν) × Option ν
  | [], k, v => ([(k, v)], none)
  | (k', v') :: rest, k, v =>
    if k' = k then ((k, v) :: rest, some v')
    else
      let r := upsertAssoc rest k v
      ((k', v') :: r.1, r.2)

/-- Modelled from the spec: directional cursor iteration over one owner's recorded
ids, ordered by key, starting strictly after the cursor when one is given. -/
def ownedIdsIter {α : Type} [LinearOrder α] (ids : List α) (start : Option α)
    (dir : IterDirection) : List α :=
  let asc := List.insertionSort (· ≤ ·) ids
  match dir, start with
  | IterDirection.forward, none => asc
  | IterDirection.forward, some k => asc.filter fun x => decide (k < x)
  | IterDirection.reverse, none => asc.reverse
  | IterDirection.reverse, some k => asc.reverse.filter fun x => decide (x < k)

/-- The key ordering an iteration in the given direction must respect. -/
def dirSorted {α : Type} [LinearOrder α] (dir : IterDirection) (l : List α) : Prop :=
  match dir with
  | IterDirection.forward => List.Sorted (· < ·) l
  | IterDirection.reverse => List.Sorted (· > ·) l

/-- x lies strictly after the cursor k when walking in direction dir. -/
def strictlyAfter {α : Type} [LinearOrder α] (dir : IterDirection) (k x : α) : Prop :=
  match dir with
  | IterDirection.forward => k < x
  | IterDirection.reverse => x < k

/-- Modelled from the spec: the inherent Database::owned_message_ids the adapter
delegates to; a store fault surfaces as an error element of the sequence. -/
def Database.owned_message_ids (db : Database) (owner : Address) (start : Option Nonce)
    (direction : Option IterDirection) : List (Except DatabaseError Nonce) :=
  match db.storeFault with
  | some e => [Except.error e]
  | none =>
    (ownedIdsIter (db.ownedMessages owner) start
      (direction.getD IterDirection.forward)).map Except.ok

/-- Modelled from the spec: the inherent Database::owned_coins_ids. -/
def Database.owned_coins_ids (db : Database) (owner : Address) (start : Option UtxoId)
    (direction : Option IterDirection) : List (Except DatabaseError UtxoId) :=
  match db.storeFault with
  | some e => [Except.error e]
  | none =>
    (ownedIdsIter (db.ownedCoins owner) start
      (direction.getD IterDirection.forward)).map Except.ok

/-- Modelled from the spec: the inherent Database::get_tx_status; absence of a
recorded status is Ok(none), a store fault is an error. -/
def Database.get_tx_status (db : Database) (tx_id : TxId) :
    Except StorageError (Option TransactionStatus) :=
  match db.storeFault with
  | some e => Except.error (StorageError.dbError e)
  | none => Except.ok (lookupAssoc db.txStatuses tx_id)

/-- Modelled from the spec: the inherent Database::update_tx_status, an upsert
returning the previously stored status. -/
def Database.update_tx_status (db : Database) (id : TxId) (status : TransactionStatus) :
    Database × Option TransactionStatus :=
  let r := upsertAssoc db.txStatuses id status
  ({ db with txStatuses := r.1 }, r.2)

/-- Modelled from the spec: the inherent Database::record_tx_id_owner, an upsert
at the composite (owner, block_height, tx_idx) key returning the previous id. -/
def Database.record_tx_id_owner (db : Database) (owner : Address)
    (block_height : BlockHeight) (tx_idx : Nat) (tx_id : TxId) : Database × Option TxId :=
  let r := upsertAssoc db.ownedTxs (OwnedTransactionIndexKey.mk owner block_height tx_idx) tx_id
  ({ db with ownedTxs := r.1 }, r.2)

/-- The composite (block_height, tx_idx) ordering key, compared lexicographically. -/
abbrev CompositeKey := Lex (Nat × Nat)

/-- The composite key of one owned-transaction index entry. -/
def entryKey (e : OwnedTransactionIndexKey × TxId) : CompositeKey :=
  toLex (e.1.block_height, e.1.tx_idx)

/-- Ascending comparison of owned-transaction entries by composite key. -/
def txKeyLE (a b : CompositeKey × TxId) : Prop := a.1 ≤ b.1

instance : DecidableRel txKeyLE := fun a b => inferInstanceAs (Decidable (a.1 ≤ b.1))

instance : IsTotal (CompositeKey × TxId) txKeyLE := ⟨fun a b => le_total a.1 b.1⟩

instance : IsTrans (CompositeKey × TxId) txKeyLE := ⟨fun _ _ _ h1 h2 => le_trans h1 h2⟩

/-- Descending comparison of owned-transaction entries by composite key. -/
def txKeyGE (a b : CompositeKey × TxId) : Prop := b.1 ≤ a.1

instance : DecidableRel txKeyGE := fun a b => inferInstanceAs (Decidable (b.1 ≤ a.1))

instance : IsTotal (CompositeKey × TxId) txKeyGE := ⟨fun a b => le_total b.1 a.1⟩

instance : IsTrans (CompositeKey × TxId) txKeyGE := ⟨fun _ _ _ h1 h2 => le_trans h2 h1⟩

/-- Modelled from the spec: iteration over one owner's recorded transactions,
ordered by the composite (block_height, tx_idx) key, resuming strictly after the
cursor when one is given. -/
def ownedTxIter (entries : List (OwnedTransactionIndexKey × TxId)) (owner : Address)
    (start : Option CompositeKey) (dir : IterDirection) : List (CompositeKey × TxId) :=
  let mine := (entries.filter fun e => decide (e.1.owner = owner)).map fun e => (entryKey e, e.2)
  match dir, start with
  | IterDirection.forward, none => List.insertionSort txKeyLE mine
  | IterDirection.forward, some k =>
    (List.insertionSort txKeyLE mine).filter fun e => decide (k < e.1)
  | IterDirection.reverse, none => List.insertionSort txKeyGE mine
  | IterDirection.reverse, some k =>
    (List.insertionSort txKeyGE mine).filter fun e => decide (e.1 < k)

/-- Modelled from the spec: the inherent Database::owned_transactions. -/
def Database.owned_transactions (db : Database) (owner : Address)
    (start : Option OwnedTransactionIndexCursor) (direction : Option IterDirection) :
    List (Except DatabaseError (CompositeKey × TxId)) :=
  match db.storeFault with
  | some e => [Except.error e]
  | none =>
    (ownedTxIter db.ownedTxs owner (start.map fun c => toLex (c.block_height, c.tx_idx))
      (direction.getD IterDirection.forward)).map Except.ok

/-- Embeds OffChainDatabase::owned_message_ids (off_chain.rs lines 42-51):
delegate to the inherent method with Some(direction), mapping each error through
StorageError::from. -/
def OffChainDatabase.owned_message_ids (db : Database) (owner : Address)
    (start_message_id : Option Nonce) (direction : IterDirection) :
    List (Except StorageError Nonce) :=
  (Database.owned_message_ids db owner start_message_id (some direction)).map
    (Except.mapError StorageError.fromDb)

/-- Embeds OffChainDatabase::owned_coins_ids (off_chain.rs lines 53-62). -/
def OffChainDatabase.owned_coins_ids (db : Database) (owner : Address)
    (start_coin : Option UtxoId) (direction : IterDirection) :
    List (Except StorageError UtxoId) :=
  (Database.owned_coins_ids db owner start_coin (some direction)).map
    (Except.mapError StorageError.fromDb)

/-- Embeds OffChainDatabase::tx_status (off_chain.rs lines 64-68): the
transpose / ok_or(not_found("TransactionId")) / question-mark chain. -/
def OffChainDatabase.tx_status (db : Database) (tx_id : TxId) :
    Except StorageError TransactionStatus :=
  match Database.get_tx_status db tx_id with
  | Except.error e => Except.error e
  | Except.ok none => Except.error (StorageError.notFound "TransactionId")
  | Except.ok (some status) => Except.ok status

/-- The start cursor built from a TxPointer inside owned_transactions_ids
(off_chain.rs lines 76-79). -/
def cursorFromTxPointer (tx_pointer : TxPointer) : OwnedTransactionIndexCursor :=
  { block_height := tx_pointer.block_height, tx_idx := tx_pointer.tx_index }

/-- Embeds OffChainDatabase::owned_transactions_ids (off_chain.rs lines 70-83). -/
def OffChainDatabase.owned_transactions_ids (db : Database) (owner : Address)
    (start : Option TxPointer) (direction : IterDirection) :
    List (Except StorageError (CompositeKey × TxId)) :=
  let start := start.map cursorFromTxPointer
  (Database.owned_transactions db owner start (some direction)).map
    (Except.mapError StorageError.fromDb)

/-- Result of running a possibly-panicking operation: a value, a returned error,
or a process abort with a panic message. -/
inductive Outcome (ε α : Type) where
  | ok (a : α)
  | error (e : ε)
  | panicked (msg : String)

/-- The off-chain view handed out by the snapshot provider. -/
abbrev OffChainView := Database

/-- Embeds AtomicView::view_at (off_chain.rs lines 87-91); the body is a bare
call that aborts for every height. -/
def AtomicView.view_at (_db : Database) (_height : BlockHeight) :
    Outcome StorageError OffChainView :=
  Outcome.panicked
    "Unimplemented until of the https://github.com/FuelLabs/fuel-core/issues/451"

/-- Embeds AtomicView::latest_view (off_chain.rs lines 93-96), Arc::new(self.clone()).
Modelled from the spec: cloning captures the committed state value at call time
(a copy-on-write snapshot); the Database internals are outside the excerpt. -/
def AtomicView.latest_view (db : Database) : OffChainView := db

/-- Embeds worker::OffChainDatabase::record_tx_id_owner (off_chain.rs lines 100-108),
a direct delegation to the inherent method. -/
def worker.record_tx_id_owner (db : Database) (owner : Address)
    (block_height : BlockHeight) (tx_idx : Nat) (tx_id : TxId) : Database × Option TxId :=
  Database.record_tx_id_owner db owner block_height tx_idx tx_id

/-- Embeds worker::OffChainDatabase::update_tx_status (off_chain.rs lines 110-116),
a direct delegation to the inherent method. -/
def worker.update_tx_status (db : Database) (id : TxId) (status : TransactionStatus) :
    Database × Option TransactionStatus :=
  Database.update_tx_status db id status

/-- Modelled from the spec: the writes the worker collaborator may apply to the
live database after a view was obtained. -/
inductive WriteOp
  | updateStatus (id : TxId) (status : TransactionStatus)
  | recordOwner (owner : Address) (height : BlockHeight) (idx : Nat) (tx : TxId)

/-- Apply one worker write to the live database. -/
def applyWrite (db : Database) (w : WriteOp) : Database :=
  match w with
  | WriteOp.updateStatus id status => (worker.update_tx_status db id status).1
  | WriteOp.recordOwner owner height idx tx =>
    (worker.record_tx_id_owner db owner height idx tx).1

/-- Apply a sequence of worker writes to the live database. -/
def applyWrites (db : Database) (ws : List WriteOp) : Database := ws.foldl applyWrite db

/-- Obtain a view of the database, then let the worker apply further writes to
the live database: the pair of the captured view and the final live state. -/
def viewThenWrites (db : Database) (ws : List WriteOp) : OffChainView × Database :=
  (AtomicView.latest_view db, applyWrites db ws)

/-- Modelled from the spec: an abstract injective pairing standing in for the
external engine's 32-byte node hash. -/
def hash2 (a b : Nat) : Nat := Nat.pair a b + 3

/-- The fixed root of an empty binary Merkle tree, a model constant. -/
def binaryEmptyRoot : MerkleRoot := 1

/-- The fixed root of an empty sparse Merkle tree, a model constant. -/
def sparseEmptyRoot : MerkleRoot := 2

/-- A pending subtree root of the binary root calculator, with its height. -/
structure MNode where
  height : Nat
  hash : Nat
  deriving DecidableEq

/-- Push a subtree onto the calculator stack, merging equal-height subtrees. -/
def pushNode : List MNode → MNode → List MNode
  | [], n => [n]
  | top :: rest, n =>
    if top.height = n.height then pushNode rest ⟨n.height + 1, hash2 top.hash n.hash⟩
    else n :: top :: rest

/-- Modelled from the spec: the external binary Merkle root calculator
(fuel_merkle binary::root_calculator::MerkleRootCalculator), a stack of pending
subtree roots. -/
structure MerkleRootCalculator where
  stack : List MNode
  deriving DecidableEq

/-- A freshly created, empty root calculator. -/
def MerkleRootCalculator.new : MerkleRootCalculator := ⟨[]⟩

/-- Append one leaf to the calculator. -/
def MerkleRootCalculator.push_leaf (c : MerkleRootCalculator) (leaf : Nat) :
    MerkleRootCalculator :=
  ⟨pushNode c.stack ⟨0, hash2 0 leaf⟩⟩

/-- Collapse the pending stack into the tree root by merging the topmost subtree
into the ones below it; the empty stack gives the fixed empty-root constant. -/
def rootFromStack : List MNode → MerkleRoot
  | [] => binaryEmptyRoot
  | n :: rest =>
    (rest.foldl (fun acc b => MNode.mk (b.height + 1) (hash2 b.hash acc.hash)) n).hash

/-- The current root of the calculator. -/
def MerkleRootCalculator.root (c : MerkleRootCalculator) : MerkleRoot :=
  rootFromStack c.stack

/-- Root of the binary Merkle tree over a leaf sequence, via the calculator. -/
def binaryMerkleRoot (leaves : List Nat) : MerkleRoot :=
  MerkleRootCalculator.root
    (leaves.foldl MerkleRootCalculator.push_leaf MerkleRootCalculator.new)

/-- Modelled from the spec: the external in-memory sparse Merkle tree
(fuel_merkle sparse::in_memory::MerkleTree), key-addressed leaves. -/
structure SparseMerkleTree where
  entries : List (Nat × Nat)
  deriving DecidableEq

/-- A freshly created sparse Merkle tree with zero leaves. -/
def SparseMerkleTree.new : SparseMerkleTree := ⟨[]⟩

/-- Root of a sparse Merkle tree over its entry list; zero entries give the
fixed empty-root constant. -/
def sparseMerkleRoot (entries : List (Nat × Nat)) : MerkleRoot :=
  entries.foldl (fun acc e => hash2 acc (hash2 e.1 e.2)) sparseEmptyRoot

/-- The current root of the sparse tree. -/
def SparseMerkleTree.root (t : SparseMerkleTree) : MerkleRoot :=
  sparseMerkleRoot t.entries

/-- Metadata for dense Merkle trees (tables.rs lines 152-160). -/
structure DenseMerkleMetadata where
  root : MerkleRoot
  version : Nat
  deriving DecidableEq

/-- Default for DenseMerkleMetadata (tables.rs lines 162-170): the root of a
freshly created empty calculator and version 0. -/
def DenseMerkleMetadata.default : DenseMerkleMetadata :=
  { root := MerkleRootCalculator.root MerkleRootCalculator.new, version := 0 }

/-- Metadata for sparse Merkle trees (tables.rs lines 172-177). -/
structure SparseMerkleMetadata where
  root : MerkleRoot
  deriving DecidableEq

/-- Default for SparseMerkleMetadata (tables.rs lines 179-186): the root of a
freshly created empty in-memory sparse tree. -/
def SparseMerkleMetadata.default : SparseMerkleMetadata :=
  { root := SparseMerkleTree.root SparseMerkleTree.new }

/-- The key types appearing in the Mappable schemas of tables.rs. -/
inductive KeyType
  | blockId
  | contractId
  | txId
  | utxoId
  | nonce
  | bytes32
  | blockHeight
  | u64
  | bytes32Array
  deriving DecidableEq

/-- The owned value types appearing in the Mappable schemas of tables.rs. -/
inductive ValueType
  | compressedBlock
  | contractUtxoInfo
  | receipts
  | consensus
  | compressedCoin
  | message
  | transaction
  | unitValue
  | binaryPrimitive
  | sparsePrimitive
  | denseMerkleMetadataValue
  | sparseMerkleMetadataValue
  deriving DecidableEq

/-- The Lean denotation of each stored value type: the marker value is the unit
type, the Merkle metadata values are the structures above, and external domain
payloads are abstracted as naturals. -/
def ValueDenote : ValueType → Type
  | ValueType.unitValue => Unit
  | ValueType.denseMerkleMetadataValue => DenseMerkleMetadata
  | ValueType.sparseMerkleMetadataValue => SparseMerkleMetadata
  | _ => Nat

/-- A table schema: the binding of a key type to an owned value type. -/
structure TableSchema where
  key : KeyType
  value : ValueType
  deriving DecidableEq

/-- Schema of FuelBlocks (tables.rs lines 37-47). -/
def FuelBlocks : TableSchema := ⟨KeyType.blockId, ValueType.compressedBlock⟩

/-- Schema of ContractsLatestUtxo (tables.rs lines 52-60). -/
def ContractsLatestUtxo : TableSchema := ⟨KeyType.contractId, ValueType.contractUtxoInfo⟩

/-- Schema of Receipts (tables.rs lines 64-72). -/
def Receipts : TableSchema := ⟨KeyType.bytes32, ValueType.receipts⟩

/-- Schema of SealedBlockConsensus (tables.rs lines 75-82). -/
def SealedBlockConsensus : TableSchema := ⟨KeyType.blockId, ValueType.consensus⟩

/-- Schema of Coins (tables.rs lines 86-93). -/
def Coins : TableSchema := ⟨KeyType.utxoId, ValueType.compressedCoin⟩

/-- Schema of Messages (tables.rs lines 96-103). -/
def Messages : TableSchema := ⟨KeyType.nonce, ValueType.message⟩

/-- Schema of SpentMessages (tables.rs lines 106-113): value type is the Rust unit. -/
def SpentMessages : TableSchema := ⟨KeyType.nonce, ValueType.unitValue⟩

/-- Schema of Transactions (tables.rs lines 116-123). -/
def Transactions : TableSchema := ⟨KeyType.txId, ValueType.transaction⟩

/-- Schema of ProcessedTransactions (tables.rs lines 127-134): value type is the
Rust unit. -/
def ProcessedTransactions : TableSchema := ⟨KeyType.txId, ValueType.unitValue⟩

/-- Schema of merkle::FuelBlockMerkleData (tables.rs lines 189-196). -/
def FuelBlockMerkleData : TableSchema := ⟨KeyType.u64, ValueType.binaryPrimitive⟩

/-- Schema of merkle::FuelBlockMerkleMetadata (tables.rs lines 199-206). -/
def FuelBlockMerkleMetadata : TableSchema :=
  ⟨KeyType.blockHeight, ValueType.denseMerkleMetadataValue⟩

/-- Schema of merkle::ContractsAssetsMerkleData (tables.rs lines 209-216). -/
def ContractsAssetsMerkleData : TableSchema :=
  ⟨KeyType.bytes32Array, ValueType.sparsePrimitive⟩

/-- Schema of merkle::ContractsAssetsMerkleMetadata (tables.rs lines 219-226). -/
def ContractsAssetsMerkleMetadata : TableSchema :=
  ⟨KeyType.contractId, ValueType.sparseMerkleMetadataValue⟩

/-- Schema of merkle::ContractsStateMerkleData (tables.rs lines 229-236). -/
def ContractsStateMerkleData : TableSchema :=
  ⟨KeyType.bytes32Array, ValueType.sparsePrimitive⟩

/-- Schema of merkle::ContractsStateMerkleMetadata (tables.rs lines 239-246). -/
def ContractsStateMerkleMetadata : TableSchema :=
  ⟨KeyType.contractId, ValueType.sparseMerkleMetadataValue⟩

/-- The empty database: no recorded statuses, no owned ids, a healthy store. -/
def dbEmpty : Database := ⟨[], fun _ => [], fun _ => [], [], none⟩

/-- A database whose underlying byte store fails with an I/O fault. -/
def dbFaulty : Database :=
  ⟨[], fun _ => [], fun _ => [], [], some (DatabaseError.ioFault 3)⟩

/-- A concrete healthy database in which owner 0 owns message nonces 1, 2, 3 and
coins (1,0), (2,0), (3,0), recorded in scrambled order. -/
def dbOwned : Database :=
  ⟨[], fun a => if a = 0 then [3, 1, 2] else [],
   fun a => if a = 0 then [toLex (2, 0), toLex (1, 0), toLex (3, 0)] else [], [], none⟩

/-- The spec scenario database: transactions 101, 102, 103 recorded for owner 0
at composite keys (5,0), (5,1), (6,0) in that order. -/
def dbScenario : Database :=
  (worker.record_tx_id_owner
    (worker.record_tx_id_owner
      (worker.record_tx_id_owner dbEmpty 0 5 0 101).1 0 5 1 102).1 0 6 0 103).1

/-- The composite-key ordering an owned-transaction iteration must respect in the
given direction. -/
def compSorted (dir : IterDirection) (l : List CompositeKey) : Prop :=
  match dir with
  | IterDirection.forward => List.Sorted (· ≤ ·) l
  | IterDirection.reverse => List.Sorted (fun a b => b ≤ a) l

/-- Claim C1 counterexample: at height 0 on the empty database, view_at does not
return the explicit Unsupported error value — it panics instead. -/
theorem view_at_unsupported_refuted :
    AtomicView.view_at dbEmpty 0 ≠ Outcome.error StorageError.unsupported
    ∧ AtomicView.view_at dbEmpty 0 =
      Outcome.panicked
        "Unimplemented until of the https://github.com/FuelLabs/fuel-core/issues/451" :=
  ⟨fun h => Outcome.noConfusion h, rfl⟩

/-- Claim C1 (amended): for every database and block height, view_at panics with
the fixed unimplemented message referencing issue 451; it returns neither a view
nor an error value, and in particular no Unsupported error and no fallback view. -/
theorem view_at_always_panics (db : Database) (height : BlockHeight) :
    AtomicView.view_at db height =
      Outcome.panicked
        "Unimplemented until of the https://github.com/FuelLabs/fuel-core/issues/451"
    ∧ (∀ v : OffChainView, AtomicView.view_at db height ≠ Outcome.ok v)
    ∧ (∀ e : StorageError, AtomicView.view_at db height ≠ Outcome.error e) :=
  ⟨rfl, fun _ h => Outcome.noConfusion h, fun _ h => Outcome.noConfusion h⟩

/-- Claim C2: latest_view always succeeds (a view exists for every database
state), and the view is pinned: after any sequence of worker writes applied to
the live database, every read performed through the previously obtained view
returns exactly what it returned against the state committed at call time. -/
theorem latest_view_pinned (db : Database) (ws : List WriteOp) (id : TxId)
    (owner : Address) (sm : Option Nonce) (sc : Option UtxoId) (stp : Option TxPointer)
    (dir : IterDirection) :
    (∃ v : OffChainView, AtomicView.latest_view db = v)
    ∧ (viewThenWrites db ws).1 = AtomicView.latest_view db
    ∧ OffChainDatabase.tx_status (viewThenWrites db ws).1 id =
        OffChainDatabase.tx_status db id
    ∧ OffChainDatabase.owned_message_ids (viewThenWrites db ws).1 owner sm dir =
        OffChainDatabase.owned_message_ids db owner sm dir
    ∧ OffChainDatabase.owned_coins_ids (viewThenWrites db ws).1 owner sc dir =
        OffChainDatabase.owned_coins_ids db owner sc dir
    ∧ OffChainDatabase.owned_transactions_ids (viewThenWrites db ws).1 owner stp dir =
        OffChainDatabase.owned_transactions_ids db owner stp dir :=
  ⟨⟨db, rfl⟩, rfl, rfl, rfl, rfl, rfl⟩

/-- Claim C6: the default dense Merkle metadata has version 0 and its root is the
root of the binary Merkle tree over the empty leaf sequence, a fixed constant
computed with no dependency on prior state. -/
theorem dense_default_is_empty_tree :
    DenseMerkleMetadata.default.version = 0
    ∧ DenseMerkleMetadata.default.root = binaryMerkleRoot []
    ∧ DenseMerkleMetadata.default.root = binaryEmptyRoot :=
  ⟨rfl, rfl, rfl⟩

/-- Claim C7: the default sparse Merkle metadata is a pure, deterministic
computation — its root is the root of the sparse tree with zero leaves, and any
two independently constructed default values have identical roots. -/
theorem sparse_default_is_empty_tree :
    SparseMerkleMetadata.default.root = sparseMerkleRoot []
    ∧ ∀ x y : SparseMerkleMetadata, x = SparseMerkleMetadata.default →
        y = SparseMerkleMetadata.default → x.root = y.root :=
  ⟨rfl, fun _ _ hx hy => by rw [hx, hy]⟩

/-- Witness for C7: two independently written constructions of the default sparse
metadata evaluate to the same root. -/
theorem sparse_default_is_empty_tree_witness :
    (SparseMerkleMetadata.mk (sparseMerkleRoot [])).root =
      SparseMerkleMetadata.default.root :=
  sparse_default_is_empty_tree.2 (SparseMerkleMetadata.mk (sparseMerkleRoot []))
    SparseMerkleMetadata.default rfl rfl

/-- Claim C8: dense Merkle metadata is keyed by BlockHeight while the sparse
metadata tables for contract state and contract assets are keyed by ContractId
and their value carries only the current root (two sparse metadata values with
the same root are equal), with no by-height key. -/
theorem merkle_metadata_keying :
    FuelBlockMerkleMetadata.key = KeyType.blockHeight
    ∧ FuelBlockMerkleMetadata.value = ValueType.denseMerkleMetadataValue
    ∧ ContractsStateMerkleMetadata.key = KeyType.contractId
    ∧ ContractsAssetsMerkleMetadata.key = KeyType.contractId
    ∧ ContractsStateMerkleMetadata.value = ValueType.sparseMerkleMetadataValue
    ∧ ContractsAssetsMerkleMetadata.value = ValueType.sparseMerkleMetadataValue
    ∧ ContractsStateMerkleMetadata.key ≠ KeyType.blockHeight
    ∧ ContractsAssetsMerkleMetadata.key ≠ KeyType.blockHeight
    ∧ ∀ x y : SparseMerkleMetadata, x.root = y.root → x = y := by
  refine ⟨rfl, rfl, rfl, rfl, rfl, rfl, by decide, by decide, ?_⟩
  intro x y h
  cases x
  cases y
  exact congrArg SparseMerkleMetadata.mk h

/-- Witness for C8: two concrete sparse metadata values with equal roots are equal. -/
theorem merkle_metadata_keying_witness :
    SparseMerkleMetadata.mk 5 = SparseMerkleMetadata.mk 5 :=
  merkle_metadata_keying.2.2.2.2.2.2.2.2 (SparseMerkleMetadata.mk 5)
    (SparseMerkleMetadata.mk 5) rfl

/-- Claim C9: the SpentMessages and ProcessedTransactions tables store the unit
value, which has exactly one inhabitant — an entry carries no payload beyond the
existence of its key. -/
theorem marker_tables_unit_value :
    SpentMessages.value = ValueType.unitValue
    ∧ ProcessedTransactions.value = ValueType.unitValue
    ∧ ∀ x y : ValueDenote ValueType.unitValue, x = y :=
  ⟨rfl, rfl, fun _ _ => rfl⟩

/-- Looking up a key right after upserting it finds the upserted value. -/
theorem lookupAssoc_upsertAssoc {κ ν : Type} [DecidableEq κ] (l : List (κ × ν))
    (k : κ) (v : ν) : lookupAssoc (upsertAssoc l k v).1 k = some v := by
  induction l with
  | nil => simp [upsertAssoc, lookupAssoc]
  | cons hd tl ih =>
    obtain ⟨k', v'⟩ := hd
    by_cases h : k' = k
    · simp [upsertAssoc, lookupAssoc, h]
    · simp [upsertAssoc, lookupAssoc, h, ih]

/-- Claim C3: tx_status returns the NotFound("TransactionId") error exactly when
the underlying lookup succeeds with no recorded status; any error from the
underlying store is propagated unchanged, never turned into NotFound; and on a
healthy store, reading right after update_tx_status(id, S) yields Ok(S). -/
theorem tx_status_spec (db : Database) (id : TxId) (status : TransactionStatus) :
    (OffChainDatabase.tx_status db id =
        Except.error (StorageError.notFound "TransactionId")
      ↔ Database.get_tx_status db id = Except.ok none)
    ∧ (∀ e : StorageError, Database.get_tx_status db id = Except.error e →
        OffChainDatabase.tx_status db id = Except.error e)
    ∧ (db.storeFault = none →
        OffChainDatabase.tx_status (worker.update_tx_status db id status).1 id =
          Except.ok status) := by
  refine ⟨?_, ?_, ?_⟩
  · cases hf : db.storeFault with
    | some e => simp [OffChainDatabase.tx_status, Database.get_tx_status, hf]
    | none =>
      cases hl : lookupAssoc db.txStatuses id with
      | none => simp [OffChainDatabase.tx_status, Database.get_tx_status, hf, hl]
      | some s => simp [OffChainDatabase.tx_status, Database.get_tx_status, hf, hl]
  · intro e he
    simp [OffChainDatabase.tx_status, he]
  · intro hf
    simp [OffChainDatabase.tx_status, Database.get_tx_status,
      worker.update_tx_status, Database.update_tx_status, hf, lookupAssoc_upsertAssoc]

/-- Witness for C3: on the empty database, updating the status of transaction 7
and reading it back yields exactly that status, and on a database whose store
fails with an I/O fault the fault is propagated unchanged. -/
theorem tx_status_spec_witness :
    OffChainDatabase.tx_status
        (worker.update_tx_status dbEmpty 7 TransactionStatus.success).1 7 =
      Except.ok TransactionStatus.success
    ∧ OffChainDatabase.tx_status dbFaulty 7 =
      Except.error (StorageError.dbError (DatabaseError.ioFault 3)) :=
  ⟨(tx_status_spec dbEmpty 7 TransactionStatus.success).2.2 rfl,
   (tx_status_spec dbFaulty 7 TransactionStatus.success).2.1
     (StorageError.dbError (DatabaseError.ioFault 3)) rfl⟩

/-- Claim C10: each off-chain adapter method returns exactly the underlying
inherent Database method's sequence or value, the only transformation being the
conversion of each error element through StorageError::from — same length, Ok
elements unchanged at every position, errors converted in place — and the worker
adapter methods delegate unchanged. -/
theorem adapter_delegation (db : Database) (owner : Address) (sm : Option Nonce)
    (sc : Option UtxoId) (stp : Option TxPointer) (dir : IterDirection)
    (height : BlockHeight) (idx : Nat) (tx id : TxId) (status : TransactionStatus)
    (n : Nat) :
    OffChainDatabase.owned_message_ids db owner sm dir =
      (Database.owned_message_ids db owner sm (some dir)).map
        (Except.mapError StorageError.fromDb)
    ∧ OffChainDatabase.owned_coins_ids db owner sc dir =
      (Database.owned_coins_ids db owner sc (some dir)).map
        (Except.mapError StorageError.fromDb)
    ∧ OffChainDatabase.owned_transactions_ids db owner stp dir =
      (Database.owned_transactions db owner (stp.map cursorFromTxPointer)
        (some dir)).map (Except.mapError StorageError.fromDb)
    ∧ (OffChainDatabase.owned_message_ids db owner sm dir).length =
      (Database.owned_message_ids db owner sm (some dir)).length
    ∧ (∀ a : Nonce,
        (Database.owned_message_ids db owner sm (some dir))[n]? =
          some (Except.ok a) →
        (OffChainDatabase.owned_message_ids db owner sm dir)[n]? =
          some (Except.ok a))
    ∧ (∀ e : DatabaseError,
        (Database.owned_message_ids db owner sm (some dir))[n]? =
          some (Except.error e) →
        (OffChainDatabase.owned_message_ids db owner sm dir)[n]? =
          some (Except.error (StorageError.fromDb e)))
    ∧ worker.record_tx_id_owner db owner height idx tx =
        Database.record_tx_id_owner db owner height idx tx
    ∧ worker.update_tx_status db id status = Database.update_tx_status db id status := by
  refine ⟨rfl, rfl, rfl, ?_, ?_, ?_, rfl, rfl⟩
  · exact (List.length_map _ _).symm ▸ rfl
  · intro a h
    simp [OffChainDatabase.owned_message_ids, List.getElem?_map, h, Except.mapError]
  · intro e h
    simp [OffChainDatabase.owned_message_ids, List.getElem?_map, h, Except.mapError,
      StorageError.fromDb]

/-- Witness for C10: on a concrete healthy database the adapter passes through
the first Ok element unchanged, and on a concrete faulty database it converts
the error element through StorageError::from. -/
theorem adapter_delegation_witness :
    (OffChainDatabase.owned_message_ids dbOwned 0 none IterDirection.forward)[0]? =
      some (Except.ok 1)
    ∧ (OffChainDatabase.owned_message_ids dbFaulty 0 none IterDirection.forward)[0]? =
      some (Except.error (StorageError.fromDb (DatabaseError.ioFault 3))) :=
  ⟨(adapter_delegation dbOwned 0 none none none IterDirection.forward 0 0 0 0
      TransactionStatus.success 0).2.2.2.2.1 1 rfl,
   (adapter_delegation dbFaulty 0 none none none IterDirection.forward 0 0 0 0
      TransactionStatus.success 0).2.2.2.2.2.1 (DatabaseError.ioFault 3) rfl⟩

/-- Sorting a duplicate-free list ascending yields a strictly increasing chain. -/
theorem sortedAsc_of_nodup {α : Type} [LinearOrder α] (ids : List α) (h : ids.Nodup) :
    List.Sorted (· < ·) (List.insertionSort (· ≤ ·) ids) := by
  have hs : List.Sorted (· ≤ ·) (List.insertionSort (· ≤ ·) ids) :=
    List.sorted_insertionSort _ ids
  have hn : (List.insertionSort (· ≤ ·) ids).Nodup :=
    (List.perm_insertionSort _ ids).nodup_iff.mpr h
  exact List.Pairwise.imp₂ (fun _ _ h1 h2 => lt_of_le_of_ne h1 h2) hs hn

/-- A full owner-id iteration is strictly ordered per direction. -/
theorem ownedIdsIter_none_sorted {α : Type} [LinearOrder α] (ids : List α)
    (h : ids.Nodup) (dir : IterDirection) : dirSorted dir (ownedIdsIter ids none dir) := by
  cases dir with
  | forward => exact sortedAsc_of_nodup ids h
  | reverse =>
    show List.Pairwise (· > ·) (List.insertionSort (· ≤ ·) ids).reverse
    rw [List.pairwise_reverse]
    exact sortedAsc_of_nodup ids h

/-- A resumed owner-id iteration is strictly ordered per direction. -/
theorem ownedIdsIter_some_sorted {α : Type} [LinearOrder α] (ids : List α)
    (h : ids.Nodup) (k : α) (dir : IterDirection) :
    dirSorted dir (ownedIdsIter ids (some k) dir) := by
  cases dir with
  | forward => exact List.Pairwise.filter _ (sortedAsc_of_nodup ids h)
  | reverse =>
    refine List.Pairwise.filter _ ?_
    show List.Pairwise (· > ·) (List.insertionSort (· ≤ ·) ids).reverse
    rw [List.pairwise_reverse]
    exact sortedAsc_of_nodup ids h

/-- Every id yielded by a resumed iteration lies strictly after the cursor. -/
theorem ownedIdsIter_some_after {α : Type} [LinearOrder α] (ids : List α) (k : α)
    (dir : IterDirection) (x : α) (hx : x ∈ ownedIdsIter ids (some k) dir) :
    strictlyAfter dir k x := by
  cases dir with
  | forward =>
    have hx' : x ∈ (List.insertionSort (· ≤ ·) ids).filter (fun y => decide (k < y)) := hx
    rw [List.mem_filter] at hx'
    show k < x
    exact of_decide_eq_true hx'.2
  | reverse =>
    have hx' : x ∈ ((List.insertionSort (· ≤ ·) ids).reverse).filter
      (fun y => decide (y < k)) := hx
    rw [List.mem_filter] at hx'
    show x < k
    exact of_decide_eq_true hx'.2

/-- A full iteration yields exactly the recorded ids. -/
theorem ownedIdsIter_none_mem {α : Type} [LinearOrder α] (ids : List α)
    (dir : IterDirection) (x : α) : x ∈ ownedIdsIter ids none dir ↔ x ∈ ids := by
  cases dir with
  | forward => exact (List.perm_insertionSort _ ids).mem_iff
  | reverse =>
    show x ∈ (List.insertionSort (· ≤ ·) ids).reverse ↔ x ∈ ids
    rw [List.mem_reverse]
    exact (List.perm_insertionSort _ ids).mem_iff

/-- Filtering a strict chain for what lies beyond a split point keeps exactly the
suffix after that point. -/
theorem filter_strict_suffix {α : Type} (r : α → α → Prop) [DecidableRel r]
    (hasymm : ∀ x y, r x y → ¬ r y x) (hirr : ∀ x, ¬ r x x)
    (p rest : List α) (k : α) (h : List.Pairwise r (p ++ k :: rest)) :
    List.filter (fun x => decide (r k x)) (p ++ k :: rest) = rest := by
  rw [List.pairwise_append] at h
  obtain ⟨hp, hk, hcross⟩ := h
  rw [List.pairwise_cons] at hk
  rw [List.filter_append]
  have h1 : List.filter (fun x => decide (r k x)) p = [] := by
    rw [List.filter_eq_nil_iff]
    intro a ha
    simpa using hasymm a k (hcross a ha k (List.mem_cons_self _ _))
  have h2 : List.filter (fun x => decide (r k x)) rest = rest := by
    rw [List.filter_eq_self]
    intro a ha
    simpa using hk.1 a ha
  simp [h1, h2, List.filter_cons, hirr k]

/-- Resuming an owner-id iteration from a yielded key returns exactly the
remaining suffix of the full iteration. -/
theorem ownedIdsIter_resume {α : Type} [LinearOrder α] (ids : List α) (h : ids.Nodup)
    (k : α) (dir : IterDirection) (p rest : List α)
    (hsplit : ownedIdsIter ids none dir = p ++ k :: rest) :
    ownedIdsIter ids (some k) dir = rest := by
  cases dir with
  | forward =>
    have hs : List.Pairwise (· < ·) (p ++ k :: rest) := by
      rw [← hsplit]
      exact ownedIdsIter_none_sorted ids h IterDirection.forward
    have he : List.insertionSort (· ≤ ·) ids = p ++ k :: rest := hsplit
    show (List.insertionSort (· ≤ ·) ids).filter (fun x => decide (k < x)) = rest
    rw [he]
    exact filter_strict_suffix (· < ·) (fun _ _ h1 h2 => lt_asymm h1 h2)
      (fun x => lt_irrefl x) p rest k hs
  | reverse =>
    have hs : List.Pairwise (fun a b => b < a) (p ++ k :: rest) := by
      rw [← hsplit]
      show List.Pairwise (· > ·) (List.insertionSort (· ≤ ·) ids).reverse
      rw [List.pairwise_reverse]
      exact sortedAsc_of_nodup ids h
    have he : (List.insertionSort (· ≤ ·) ids).reverse = p ++ k :: rest := hsplit
    show ((List.insertionSort (· ≤ ·) ids).reverse).filter
      (fun x => decide (x < k)) = rest
    rw [he]
    exact @filter_strict_suffix α (fun a b => b < a)
      (fun a b => inferInstanceAs (Decidable (b < a)))
      (fun _ _ h1 h2 => lt_asymm h1 h2) (fun x => lt_irrefl x) p rest k hs

/-- Under a composed map, mapping errors after injecting Ok elements is the
plain Ok injection. -/
theorem mapError_comp_ok {ε ε' α : Type} (f : ε → ε') :
    (Except.mapError f ∘ (Except.ok : α → Except ε α)) = Except.ok := rfl

/-- The adapter under a healthy store yields exactly the pure iteration, Ok-wrapped:
the owned_message_ids case. -/
theorem adapter_message_ids_healthy (db : Database) (owner : Address)
    (st : Option Nonce) (dir : IterDirection) (hfault : db.storeFault = none) :
    OffChainDatabase.owned_message_ids db owner st dir =
      (ownedIdsIter (db.ownedMessages owner) st dir).map Except.ok := by
  show (Database.owned_message_ids db owner st (some dir)).map
    (Except.mapError StorageError.fromDb) = _
  simp only [Database.owned_message_ids, hfault, Option.getD_some]
  rw [List.map_map, mapError_comp_ok]

/-- The adapter under a healthy store yields exactly the pure iteration, Ok-wrapped:
the owned_coins_ids case. -/
theorem adapter_coins_ids_healthy (db : Database) (owner : Address)
    (st : Option UtxoId) (dir : IterDirection) (hfault : db.storeFault = none) :
    OffChainDatabase.owned_coins_ids db owner st dir =
      (ownedIdsIter (db.ownedCoins owner) st dir).map Except.ok := by
  show (Database.owned_coins_ids db owner st (some dir)).map
    (Except.mapError StorageError.fromDb) = _
  simp only [Database.owned_coins_ids, hfault, Option.getD_some]
  rw [List.map_map, mapError_comp_ok]

/-- Claim C4: for every owner and direction, owned_message_ids and owned_coins_ids
yield exactly the owner's recorded ids in strict key order (ascending or
descending per direction), each yielded id lies strictly after the cursor when
one is given, and re-entering with the cursor set to the last previously yielded
key returns exactly the remaining suffix of the full iteration — no duplicates,
no gaps. Hypotheses: the recorded id lists model sets (no duplicates), the store
is healthy, and the full iterations split as prefix, cursor key, suffix. -/
theorem owned_ids_iteration_spec (db : Database) (owner : Address)
    (dir : IterDirection) (a : Nonce) (p rest : List Nonce) (b : UtxoId)
    (q rest' : List UtxoId)
    (hmn : (db.ownedMessages owner).Nodup) (hcn : (db.ownedCoins owner).Nodup)
    (hfault : db.storeFault = none)
    (hm : ownedIdsIter (db.ownedMessages owner) none dir = p ++ a :: rest)
    (hc : ownedIdsIter (db.ownedCoins owner) none dir = q ++ b :: rest') :
    ownedIdsIter (db.ownedMessages owner) (some a) dir = rest
    ∧ ownedIdsIter (db.ownedCoins owner) (some b) dir = rest'
    ∧ (∀ st : Option Nonce, dirSorted dir (ownedIdsIter (db.ownedMessages owner) st dir))
    ∧ (∀ st : Option UtxoId, dirSorted dir (ownedIdsIter (db.ownedCoins owner) st dir))
    ∧ (∀ x ∈ ownedIdsIter (db.ownedMessages owner) (some a) dir, strictlyAfter dir a x)
    ∧ (∀ x ∈ ownedIdsIter (db.ownedCoins owner) (some b) dir, strictlyAfter dir b x)
    ∧ (∀ x : Nonce, x ∈ ownedIdsIter (db.ownedMessages owner) none dir ↔
        x ∈ db.ownedMessages owner)
    ∧ (∀ x : UtxoId, x ∈ ownedIdsIter (db.ownedCoins owner) none dir ↔
        x ∈ db.ownedCoins owner)
    ∧ (∀ st : Option Nonce, OffChainDatabase.owned_message_ids db owner st dir =
        (ownedIdsIter (db.ownedMessages owner) st dir).map Except.ok)
    ∧ (∀ st : Option UtxoId, OffChainDatabase.owned_coins_ids db owner st dir =
        (ownedIdsIter (db.ownedCoins owner) st dir).map Except.ok) := by
  refine ⟨ownedIdsIter_resume _ hmn a dir p rest hm,
    ownedIdsIter_resume _ hcn b dir q rest' hc, ?_, ?_, ?_, ?_, ?_, ?_, ?_, ?_⟩
  · intro st
    cases st with
    | none => exact ownedIdsIter_none_sorted _ hmn dir
    | some k => exact ownedIdsIter_some_sorted _ hmn k dir
  · intro st
    cases st with
    | none => exact ownedIdsIter_none_sorted _ hcn dir
    | some k => exact ownedIdsIter_some_sorted _ hcn k dir
  · intro x hx
    exact ownedIdsIter_some_after _ a dir x hx
  · intro x hx
    exact ownedIdsIter_some_after _ b dir x hx
  · intro x
    exact ownedIdsIter_none_mem _ dir x
  · intro x
    exact ownedIdsIter_none_mem _ dir x
  · intro st
    exact adapter_message_ids_healthy db owner st dir hfault
  · intro st
    exact adapter_coins_ids_healthy db owner st dir hfault

/-- Witness for C4: on a concrete database where owner 0 owns message nonces
1 < 2 < 3 and coins (1,0) < (2,0) < (3,0), resuming the ascending iterations
after nonce 2 and after coin (1,0) yields exactly the remaining suffixes. -/
theorem owned_ids_iteration_spec_witness :
    ownedIdsIter (dbOwned.ownedMessages 0) (some 2) IterDirection.forward = [3]
    ∧ ownedIdsIter (dbOwned.ownedCoins 0) (some (toLex (1, 0)))
        IterDirection.forward = [toLex (2, 0), toLex (3, 0)] :=
  ⟨(owned_ids_iteration_spec dbOwned 0 IterDirection.forward 2 [1] [3]
      (toLex (1, 0)) [] [toLex (2, 0), toLex (3, 0)] (by decide) (by decide) rfl
      (by decide) (by decide)).1,
   (owned_ids_iteration_spec dbOwned 0 IterDirection.forward 2 [1] [3]
      (toLex (1, 0)) [] [toLex (2, 0), toLex (3, 0)] (by decide) (by decide) rfl
      (by decide) (by decide)).2.1⟩

/-- The keys of an owned-transaction iteration are ordered by the composite
(block_height, tx_idx) key, per direction. -/
theorem ownedTxIter_sorted (entries : List (OwnedTransactionIndexKey × TxId))
    (owner : Address) (start : Option CompositeKey) (dir : IterDirection) :
    compSorted dir ((ownedTxIter entries owner start dir).map Prod.fst) := by
  cases dir with
  | forward =>
    cases start with
    | none =>
      exact (List.sorted_insertionSort txKeyLE _).map Prod.fst (fun _ _ h => h)
    | some k =>
      exact (List.Pairwise.filter _ (List.sorted_insertionSort txKeyLE _)).map
        Prod.fst (fun _ _ h => h)
  | reverse =>
    cases start with
    | none =>
      exact (List.sorted_insertionSort txKeyGE _).map Prod.fst (fun _ _ h => h)
    | some k =>
      exact (List.Pairwise.filter _ (List.sorted_insertionSort txKeyGE _)).map
        Prod.fst (fun _ _ h => h)

/-- Claim C5: owned_transactions_ids yields the owner's transactions ordered by
the composite (block_height, tx_idx) key; the start cursor built from a
TxPointer preserves exactly its block_height and tx_index fields; and after
recording tx 101 at (5,0), tx 102 at (5,1) and tx 103 at (6,0) for owner 0,
the ascending iteration yields 101, 102, 103 in that composite-key order. -/
theorem owned_transactions_spec :
    (∀ tp : TxPointer, (cursorFromTxPointer tp).block_height = tp.block_height
      ∧ (cursorFromTxPointer tp).tx_idx = tp.tx_index)
    ∧ (∀ (entries : List (OwnedTransactionIndexKey × TxId)) (owner : Address)
        (start : Option CompositeKey) (dir : IterDirection),
        compSorted dir ((ownedTxIter entries owner start dir).map Prod.fst))
    ∧ OffChainDatabase.owned_transactions_ids dbScenario 0 none IterDirection.forward =
      [Except.ok (toLex (5, 0), 101), Except.ok (toLex (5, 1), 102),
        Except.ok (toLex (6, 0), 103)]
    ∧ (OffChainDatabase.owned_transactions_ids dbScenario 0 none
        IterDirection.forward).map (fun r => r.map Prod.snd) =
      [Except.ok 101, Except.ok 102, Except.ok 103] := by
  refine ⟨fun tp => ⟨rfl, rfl⟩, ownedTxIter_sorted, ?_, ?_⟩
  · rfl
  · rfl
